import Mathlib

set_option linter.unusedVariables false

/-!
Verification development for the gostwriter service.

Shallow embedding of the relevant parts of the Go sources:
  internal/util/id.go           (identifier generation)
  internal/storage/upload.go    (multipart image upload validation)
  internal/jobs/model.go        (job data model)
  internal/jobs/sqlite_store.go (durable job store)
  internal/jobs/queue.go        (bounded queue with worker pool)
  internal/processor            (callback delivery with retry)
  internal/server/server.go     (HTTP front: create handler, status projection)

Conventions of the embedding:
  - Machine bytes are Fin 256; sizes and counts are Nat; Go int and
    time.Duration configuration values are Int (durations in nanoseconds).
  - time.Time instants are Int nanoseconds.  The RFC3339Nano text encoding
    used by the store is lossless at nanosecond precision, so the embedding
    stores the instant itself in place of its serialized text.
  - The SQLite table is a function from the primary key to an optional row;
    an UPDATE whose WHERE clause matches nothing leaves the map unchanged,
    an INSERT on an existing key fails (PRIMARY KEY) without changing it.
  - Go standard-library string helpers (strings.ToLower, strings.TrimSpace,
    strings.Contains, filepath.Ext, mime.TypeByExtension built-in table) are
    re-implemented here over List Char so that every definition evaluates
    inside the kernel.
  - encoding/json is an external collaborator: the store treats the metadata
    document as opaque text, so the embedding is parametric in the metadata
    type and its marshal and unmarshal functions; fallible unmarshal returns
    an Option.
  - Filesystem and network effects (directory creation, file copy, the HTTP
    POST of a callback) are abstracted: the copy through io.LimitReader
    truncates at the ceiling and is modelled by min, and the outcome of each
    callback POST and each context-cancellation check is an oracle indexed
    by attempt number.
-/

namespace Gostwriter

/-! ## Modelled Go standard-library string helpers -/

/-- Model of unicode.IsSpace restricted to the ASCII whitespace used by
strings.TrimSpace on the inputs of interest. -/
def isSpaceGo (c : Char) : Bool :=
  c = ' ' ∨ c = '\t' ∨ c = '\n' ∨ c = Char.ofNat 11 ∨ c = Char.ofNat 12 ∨ c = '\r'

/-- Model of strings.TrimSpace. -/
def goTrimSpace (s : String) : String :=
  String.mk (((s.data.dropWhile isSpaceGo).reverse.dropWhile isSpaceGo).reverse)

/-- ASCII lowercase conversion of one character, as strings.ToLower does on
ASCII input. -/
def toLowerChar (c : Char) : Char :=
  if 'A' ≤ c ∧ c ≤ 'Z' then Char.ofNat (c.toNat + 32) else c

/-- Model of strings.ToLower. -/
def goToLower (s : String) : String :=
  String.mk (s.data.map toLowerChar)

/-- Whether the list pat occurs as a prefix of l. -/
def listHasPrefix : List Char → List Char → Bool
  | [], _ => true
  | _ :: _, [] => false
  | p :: ps, c :: cs => p = c && listHasPrefix ps cs

/-- Whether pat occurs contiguously inside l. -/
def listHasInfix (pat : List Char) : List Char → Bool
  | [] => listHasPrefix pat []
  | c :: cs => listHasPrefix pat (c :: cs) || listHasInfix pat cs

/-- Model of strings.Contains. -/
def goContains (s sub : String) : Bool :=
  listHasInfix sub.data s.data

/-- Model of filepath.Ext: the suffix of the final path element starting at
its final dot, or the empty string.  The scan walks backwards and stops at a
path separator. -/
def extSearch (acc : List Char) : List Char → String
  | [] => ""
  | c :: rest =>
      if c = '/' then ""
      else if c = '.' then String.mk ('.' :: acc)
      else extSearch (c :: acc) rest

/-- Model of filepath.Ext. -/
def filepathExt (name : String) : String :=
  extSearch [] name.data.reverse

/-! ## internal/util/id.go -/

/-- One lowercase hexadecimal digit, as fmt verb x renders it. -/
def hexDigitChar (n : Nat) : Char :=
  if n < 10 then Char.ofNat (48 + n) else Char.ofNat (87 + n)

/-- Zero-padded lowercase hexadecimal rendering of n to exactly w digits,
most significant first; this is the fmt verb 0wx for values below 16 ^ w. -/
def hexPad (w n : Nat) : List Char :=
  (List.range w).reverse.map (fun i => hexDigitChar (n / 16 ^ i % 16))

/-- Model of util.NewID.  The sixteen random bytes read from crypto/rand are
the argument; the function sets the version and variant bits and renders the
8-4-4-4-12 grouping of fmt.Sprintf with dashes. -/
def NewID (b : Fin 16 → Fin 256) : String :=
  let b6 := ((b 6).val &&& 0x0f) ||| 0x40
  let b8 := ((b 8).val &&& 0x3f) ||| 0x80
  let g1 := (b 0).val <<< 24 ||| (b 1).val <<< 16 ||| (b 2).val <<< 8 ||| (b 3).val
  let g2 := (b 4).val <<< 8 ||| (b 5).val
  let g3 := b6 <<< 8 ||| (b 7).val
  let g4 := b8 <<< 8 ||| (b 9).val
  let g5 := (b 10).val <<< 40 ||| (b 11).val <<< 32 ||| (b 12).val <<< 24 |||
            (b 13).val <<< 16 ||| (b 14).val <<< 8 ||| (b 15).val
  String.mk (hexPad 8 g1 ++ '-' :: hexPad 4 g2 ++ '-' :: hexPad 4 g3 ++
             '-' :: hexPad 4 g4 ++ '-' :: hexPad 12 g5)

/-- Lowercase hexadecimal digit class of the specification regex. -/
def isHexLower (c : Char) : Bool :=
  ('0' ≤ c ∧ c ≤ '9') ∨ ('a' ≤ c ∧ c ≤ 'f')

/-- Split a character list on dashes. -/
def splitDash : List Char → List (List Char)
  | [] => [[]]
  | c :: rest =>
      let r := splitDash rest
      if c = '-' then [] :: r
      else
        match r with
        | [] => [[c]]
        | g :: gs => (c :: g) :: gs

/-- Decision procedure for the anchored regular expression
from the specification: eight hex digits, dash, four hex digits, dash, the
digit four then three hex digits, dash, one of 8 9 a b then three hex
digits, dash, twelve hex digits. -/
def uuidV4Match (s : String) : Bool :=
  match splitDash s.data with
  | [a, b, c, d, e] =>
      a.length = 8 && b.length = 4 && c.length = 4 && d.length = 4 && e.length = 12 &&
      (a ++ b ++ c ++ d ++ e).all isHexLower &&
      c.headD ' ' = '4' &&
      (d.headD ' ' = '8' || d.headD ' ' = '9' || d.headD ' ' = 'a' || d.headD ' ' = 'b')
  | _ => false

/-! ## internal/storage/upload.go -/

/-- The allowed image media types and their upload file extensions, as the
map allowedImageMimes in upload.go. -/
def allowedImageMimes : List (String × String) :=
  [("image/png", ".png"), ("image/jpeg", ".jpg"), ("image/jpg", ".jpg")]

/-- Model of storage.isAllowedImageMime. -/
def isAllowedImageMime (mimeType : String) : Bool :=
  (allowedImageMimes.lookup (goToLower (goTrimSpace mimeType))).isSome

/-- Model of the built-in table of mime.TypeByExtension from the Go standard
library (the portable table; system mime files are not consulted).  Returns
the empty string for an unknown extension, as the Go function does. -/
def mimeTypeByExtension (ext : String) : String :=
  match ([(".avif", "image/avif"), (".css", "text/css; charset=utf-8"),
          (".gif", "image/gif"), (".htm", "text/html; charset=utf-8"),
          (".html", "text/html; charset=utf-8"), (".jpeg", "image/jpeg"),
          (".jpg", "image/jpeg"), (".js", "text/javascript; charset=utf-8"),
          (".json", "application/json"), (".mjs", "text/javascript; charset=utf-8"),
          (".pdf", "application/pdf"), (".png", "image/png"),
          (".svg", "image/svg+xml"), (".wasm", "application/wasm"),
          (".webp", "image/webp"), (".xml", "text/xml; charset=utf-8")].lookup ext) with
  | some t => t
  | none => ""

/-- The data of one multipart file part that SaveMultipartImage consumes:
the declared filename, the Content-Type header of the part, and the length
of the part content in bytes. -/
structure FileHeader where
  filename : String
  contentType : String
  size : Nat
deriving DecidableEq

/-- The declared-or-inferred media type of an upload: the Content-Type
header, unless it is empty or the generic application/octet-stream, in which
case the type inferred from the lowercased filename extension is used.
Mirrors the first block of SaveMultipartImage. -/
def resolveMime (fh : FileHeader) : String :=
  if fh.contentType = "" ∨ goToLower (goTrimSpace fh.contentType) = "application/octet-stream"
  then mimeTypeByExtension (goToLower (filepathExt fh.filename))
  else fh.contentType

/-- Model of storage.pickExtension. -/
def pickExtension (mimeType original : String) : String :=
  match allowedImageMimes.lookup (goToLower (goTrimSpace mimeType)) with
  | some ext => ext
  | none =>
      let e := goToLower (filepathExt original)
      if e = "" then ".bin" else e

/-- Successful result of SaveMultipartImage: the resolved media type that is
returned to the caller, the extension chosen for the stored file, and how
many bytes the copy through io.LimitReader wrote (the content truncated at
the ceiling). -/
structure SavedUpload where
  resolvedMime : String
  ext : String
  bytesWritten : Nat
deriving DecidableEq

/-- Model of storage.SaveMultipartImage.  Filesystem effects (directory
creation, exclusive file creation, the copy) are abstracted as succeeding;
the validation logic and the media-type resolution follow the source.  The
none case is the nil fileHeader guard. -/
def saveMultipartImage (fh : Option FileHeader) (maxBytes : Int) : Except String SavedUpload :=
  match fh with
  | none => Except.error "no file provided"
  | some fh =>
      let mimeType := resolveMime fh
      if isAllowedImageMime mimeType then
        Except.ok { resolvedMime := mimeType,
                    ext := pickExtension mimeType fh.filename,
                    bytesWritten := min fh.size maxBytes.toNat }
      else Except.error ("unsupported content type: " ++ mimeType)

/-! ## internal/jobs/model.go -/

/-- Stage constant StageQueued. -/
def StageQueued : String := "queued"

/-- Stage constant StageTranscribing. -/
def StageTranscribing : String := "transcribing"

/-- Stage constant StagePosting. -/
def StagePosting : String := "posting"

/-- Stage constant StageCompleted. -/
def StageCompleted : String := "completed"

/-- Stage constant StageFailed. -/
def StageFailed : String := "failed"

/-- The five lifecycle stages. -/
def allStages : List String :=
  [StageQueued, StageTranscribing, StagePosting, StageCompleted, StageFailed]

/-- Model of jobs.Job.  The Go struct keys metadata by map with nil as the
absent value; here the metadata type is a parameter and absence is none.
Stage is a plain string in the source (type Stage string), so it is a
String here.  Pointer-typed optional fields are Option; time.Time values
are Int nanoseconds with 0 as the zero value. -/
structure Job (μ : Type) where
  id : String
  imagePath : String
  mimeType : String
  targetName : String
  callbackURL : Option String
  title : Option String
  metadata : Option μ
  stage : String
  errorMessage : Option String
  targetLocation : Option String
  targetCommit : Option String
  createdAt : Int
  startedAt : Option Int
  completedAt : Option Int
deriving DecidableEq

/-! ## internal/jobs/sqlite_store.go -/

/-- One row of the jobs table.  Nullable columns are Option; the
metadata_json TEXT column keeps the serialized document verbatim.  The
created_at, started_at and completed_at TEXT columns hold RFC3339Nano
renderings, which are lossless at nanosecond precision, so the row stores
the instants themselves. -/
structure JobRow where
  imagePath : String
  mimeType : String
  targetName : String
  callbackURL : Option String
  title : Option String
  metadataJSON : Option String
  stage : String
  errorMessage : Option String
  targetLocation : Option String
  targetCommit : Option String
  createdAt : Int
  startedAt : Option Int
  completedAt : Option Int
deriving DecidableEq

/-- The jobs table: a map from the primary key to the row. -/
def StoreState : Type := String → Option JobRow

/-- The empty jobs table. -/
def emptyStore : StoreState := fun _ => none

/-- Point update of the table at one key. -/
def storePut (st : StoreState) (id : String) (row : JobRow) : StoreState :=
  fun x => if x = id then some row else st x

/-- Model of SQLiteStore.CreateJob.  The nil-job guard is not representable;
the empty-identifier guard, the zero created-at defaulting, the marshalling
of present metadata (absent metadata stores the empty string, not NULL), the
normalization of empty-string callback and title pointers to NULL, and the
INSERT are modelled.  An INSERT on an existing primary key fails and leaves
the table unchanged. -/
def createJob {μ : Type} (marshal : μ → String) (now : Int) (st : StoreState)
    (job : Job μ) : Except String StoreState :=
  if job.id = "" then Except.error "job.ID is required"
  else
    let createdAt := if job.createdAt = 0 then now else job.createdAt
    let meta := match job.metadata with
      | none => ""
      | some m => marshal m
    let cb := match job.callbackURL with
      | some s => if s = "" then none else some s
      | none => none
    let title := match job.title with
      | some s => if s = "" then none else some s
      | none => none
    match st job.id with
    | some _ => Except.error "insert job: constraint failed"
    | none =>
        Except.ok (storePut st job.id
          { imagePath := job.imagePath, mimeType := job.mimeType,
            targetName := job.targetName, callbackURL := cb, title := title,
            metadataJSON := some meta, stage := job.stage, errorMessage := none,
            targetLocation := none, targetCommit := none, createdAt := createdAt,
            startedAt := none, completedAt := none })

/-- Model of SQLiteStore.UpdateStage: sets the stage, and the started_at
column only when a value is provided; an unknown identifier matches no row
and the call still succeeds. -/
def updateStage (st : StoreState) (id stage : String) (startedAt : Option Int) :
    Except String StoreState :=
  match st id with
  | none => Except.ok st
  | some row =>
      Except.ok (storePut st id
        { row with stage := stage,
                   startedAt := match startedAt with
                     | some t => some t
                     | none => row.startedAt })

/-- Model of SQLiteStore.SaveResult: sets the result columns, the Completed
stage, clears error_message and sets completed_at. -/
def saveResult (st : StoreState) (id loc commit : String) (completedAt : Int) :
    Except String StoreState :=
  match st id with
  | none => Except.ok st
  | some row =>
      Except.ok (storePut st id
        { row with targetLocation := some loc, targetCommit := some commit,
                   stage := StageCompleted, errorMessage := none,
                   completedAt := some completedAt })

/-- Model of SQLiteStore.SaveError: records the message, sets the Failed
stage and completed_at. -/
def saveError (st : StoreState) (id msg : String) (completedAt : Int) :
    Except String StoreState :=
  match st id with
  | none => Except.ok st
  | some row =>
      Except.ok (storePut st id
        { row with errorMessage := some msg, stage := StageFailed,
                   completedAt := some completedAt })

/-- Model of SQLiteStore.GetJob.  A missing row is the not-found error,
returned as none.  A NULL or empty metadata document yields nil metadata; a
document the unmarshal rejects also yields nil metadata without failing the
call, exactly as the source ignores the unmarshal error. -/
def getJob {μ : Type} (unmarshal : String → Option μ) (st : StoreState) (id : String) :
    Option (Job μ) :=
  match st id with
  | none => none
  | some row =>
      some { id := id, imagePath := row.imagePath, mimeType := row.mimeType,
             targetName := row.targetName, callbackURL := row.callbackURL,
             title := row.title,
             metadata := match row.metadataJSON with
               | none => none
               | some s => if s = "" then none else unmarshal s,
             stage := row.stage, errorMessage := row.errorMessage,
             targetLocation := row.targetLocation, targetCommit := row.targetCommit,
             createdAt := row.createdAt, startedAt := row.startedAt,
             completedAt := row.completedAt }

/-- One store operation, for reasoning about operation sequences. -/
inductive StoreOp (μ : Type) where
  | create (now : Int) (job : Job μ)
  | update (id stage : String) (startedAt : Option Int)
  | result (id loc commit : String) (completedAt : Int)
  | fail (id msg : String) (completedAt : Int)

/-- Apply one operation; a failing operation leaves the table unchanged,
as each failing SQL statement does. -/
def applyOp {μ : Type} (marshal : μ → String) (st : StoreState) : StoreOp μ → StoreState
  | StoreOp.create now job =>
      match createJob marshal now st job with
      | Except.ok st2 => st2
      | Except.error _ => st
  | StoreOp.update id stage startedAt =>
      match updateStage st id stage startedAt with
      | Except.ok st2 => st2
      | Except.error _ => st
  | StoreOp.result id loc commit t =>
      match saveResult st id loc commit t with
      | Except.ok st2 => st2
      | Except.error _ => st
  | StoreOp.fail id msg t =>
      match saveError st id msg t with
      | Except.ok st2 => st2
      | Except.error _ => st

/-- Apply a sequence of operations in order. -/
def applyOps {μ : Type} (marshal : μ → String) (st : StoreState) : List (StoreOp μ) → StoreState
  | [] => st
  | op :: rest => applyOps marshal (applyOp marshal st op) rest

/-- The per-row invariant of the claim: the stage is one of the five stages
and error_message is non-null exactly on the Failed stage. -/
def rowInvariant (r : JobRow) : Bool :=
  decide (r.stage ∈ allStages) && (r.errorMessage ≠ none ↔ r.stage = StageFailed)

/-- Discipline on one operation under which the invariant is preserved:
jobs are created in the Queued stage, and UpdateStage is only invoked with
a non-terminal stage and never on a row already in the Failed stage. -/
def goodOp {μ : Type} (st : StoreState) : StoreOp μ → Bool
  | StoreOp.create _ job => job.stage = StageQueued
  | StoreOp.update id stage _ =>
      decide (stage ∈ [StageQueued, StageTranscribing, StagePosting]) &&
      (match st id with
       | some row => row.stage ≠ StageFailed
       | none => true)
  | StoreOp.result _ _ _ _ => true
  | StoreOp.fail _ _ _ => true

/-- Discipline over a whole operation sequence, threaded through the
intermediate states. -/
def goodTrace {μ : Type} (marshal : μ → String) (st : StoreState) : List (StoreOp μ) → Bool
  | [] => true
  | op :: rest => goodOp st op && goodTrace marshal (applyOp marshal st op) rest

/-! ## internal/jobs/queue.go -/

/-- Model of jobs.Queue.  The buffered channel is the buffer list together
with a closed flag; hasCancel records whether the cancel function was
installed by Start (q.cancel != nil); onceDone records whether the
sync.Once of Shutdown has fired; cancelCalled records whether the root
context has been cancelled.  Work items are abstract. -/
structure QueueState (α : Type) where
  capacity : Nat
  workers : Nat
  buffer : List α
  started : Bool
  chClosed : Bool
  cancelCalled : Bool
  onceDone : Bool
  hasCancel : Bool
deriving DecidableEq

/-- Model of jobs.NewQueue with its positive defaults for capacity and
worker count. -/
def NewQueue (α : Type) (capacity workers : Int) : QueueState α :=
  { capacity := (if capacity ≤ 0 then 128 else capacity).toNat,
    workers := (if workers ≤ 0 then 4 else workers).toNat,
    buffer := [], started := false, chClosed := false,
    cancelCalled := false, onceDone := false, hasCancel := false }

/-- Model of Queue.Start: fails when already started, otherwise installs
the cancel function, launches the workers (not further modelled) and sets
the started flag. -/
def queueStart {α : Type} (q : QueueState α) : Except String (QueueState α) :=
  if q.started then Except.error "queue already started"
  else Except.ok { q with started := true, hasCancel := true }

/-- Outcome of Queue.Enqueue.  A select with a send case and a default on a
closed channel chooses the send case and the send panics, so a closed
channel yields the runtime panic rather than an error value. -/
inductive EnqueueOutcome where
  | accepted
  | errNotStarted
  | errQueueFull
  | panicSendOnClosed
deriving DecidableEq

/-- Model of Queue.Enqueue: rejected before Start; a panic once the channel
has been closed; otherwise the non-blocking offer that fails with the
queue-full error at capacity.  (A hand-off to an idle worker is subsumed by
buffer room here; the panic and error cases are unaffected.) -/
def enqueue {α : Type} (q : QueueState α) (item : α) : QueueState α × EnqueueOutcome :=
  if ¬ q.started then (q, EnqueueOutcome.errNotStarted)
  else if q.chClosed then (q, EnqueueOutcome.panicSendOnClosed)
  else if q.buffer.length < q.capacity then
    ({ q with buffer := q.buffer ++ [item] }, EnqueueOutcome.accepted)
  else (q, EnqueueOutcome.errQueueFull)

/-- Externally visible actions of Queue.Shutdown, in order. -/
inductive ShutdownEffect where
  | cancelRootContext
  | closeChannel
  | waitForWorkers
deriving DecidableEq

/-- Model of Queue.Shutdown: guarded by sync.Once, it cancels the root
context when one was installed, closes the channel, and waits for the
workers up to the deadline (waiting indefinitely for a non-positive
deadline).  A later call performs nothing.  The started flag is never
touched. -/
def shutdown {α : Type} (q : QueueState α) (deadline : Int) :
    QueueState α × List ShutdownEffect :=
  if q.onceDone then (q, [])
  else
    ({ q with onceDone := true, chClosed := true,
              cancelCalled := q.cancelCalled || q.hasCancel },
     (if q.hasCancel then [ShutdownEffect.cancelRootContext] else []) ++
       [ShutdownEffect.closeChannel, ShutdownEffect.waitForWorkers])

/-! ## internal/processor (sendCallbackWithRetry) -/

/-- Observable trace of one sendCallbackWithRetry run: how many POST
attempts were made, the sleeps taken in order (nanoseconds), and whether
the delivery succeeded. -/
structure CallbackTrace where
  attemptsMade : Nat
  sleeps : List Int
  success : Bool
deriving DecidableEq

/-- The retry loop body: attempt is the 1-based number of the next attempt,
remaining how many loop iterations are left.  post gives the outcome of the
POST of each attempt (true on a 2xx response); ctxDone gives the outcome of
the context-cancellation test made after a failed attempt.  A failed
attempt whose context is live sleeps attempt times the backoff and
continues, even when it was the last attempt. -/
def sendCallbackLoop (post ctxDone : Nat → Bool) (backoff : Int) :
    Nat → Nat → CallbackTrace
  | _, 0 => { attemptsMade := 0, sleeps := [], success := false }
  | attempt, remaining + 1 =>
      if post attempt then { attemptsMade := 1, sleeps := [], success := true }
      else if ctxDone attempt then { attemptsMade := 1, sleeps := [], success := false }
      else
        let t := sendCallbackLoop post ctxDone backoff (attempt + 1) remaining
        { attemptsMade := t.attemptsMade + 1,
          sleeps := (attempt : Int) * backoff :: t.sleeps,
          success := t.success }

/-- The attempt ceiling after the positive default of the source
(max = 3 when the configured retries are not positive). -/
def effectiveRetries (cfgRetries : Int) : Nat :=
  (if cfgRetries ≤ 0 then 3 else cfgRetries).toNat

/-- The base backoff after the positive default of the source (2 seconds in
nanoseconds when the configured backoff is not positive). -/
def effectiveBackoff (cfgBackoff : Int) : Int :=
  if cfgBackoff ≤ 0 then 2000000000 else cfgBackoff

/-- Model of Worker.sendCallbackWithRetry: applies the positive defaults
and runs the loop from attempt 1. -/
def sendCallbackWithRetry (cfgRetries cfgBackoff : Int) (post ctxDone : Nat → Bool) :
    CallbackTrace :=
  sendCallbackLoop post ctxDone (effectiveBackoff cfgBackoff) 1 (effectiveRetries cfgRetries)

/-! ## internal/server/server.go -/

/-- The status projection rendered by jobToOut: the redacted error is none
for the JSON null, and the target_result triple is present when either
result column is. -/
structure StatusOut where
  jobId : String
  stage : String
  createdAt : Int
  startedAt : Option Int
  completedAt : Option Int
  error : Option String
  targetResult : Option (String × String × String)
deriving DecidableEq

/-- Model of server.deref. -/
def deref (p : Option String) : String :=
  match p with
  | none => ""
  | some s => s

/-- Model of server.jobToOut. -/
def jobToOut {μ : Type} (job : Job μ) : StatusOut :=
  { jobId := job.id, stage := job.stage, createdAt := job.createdAt,
    startedAt := job.startedAt, completedAt := job.completedAt,
    error := match job.errorMessage with
      | some s => if s = "" then none else some "internal error"
      | none => none,
    targetResult :=
      if job.targetLocation ≠ none ∨ job.targetCommit ≠ none then
        some (job.targetName, deref job.targetLocation, deref job.targetCommit)
      else none }

/-- The parts of one create-transcription request that the handler
inspects.  envelopeLen is the number of multipart framing bytes of the
request body besides the file content (boundary lines and part headers);
it is at least one in any well-formed multipart body. -/
structure CreateReq where
  apiKeyHeader : String
  preferHeader : String
  envelopeLen : Nat
  file : Option FileHeader
  callbackField : String
  titleField : String
  metadataField : String

/-- Outcomes of the external collaborators the handler consults:
url.ParseRequestURI, the JSON object parse of the metadata field, the store
insert, the queue offer and the inline processor run. -/
structure CreateDeps where
  validURL : String → Bool
  validJSONMap : String → Bool
  createJobOk : Bool
  enqueueOk : Bool
  processOk : Bool

/-- Length of the request body: file content plus multipart framing. -/
def bodyLen (r : CreateReq) : Nat :=
  (match r.file with
   | some f => f.size
   | none => 0) + r.envelopeLen

/-- Model of the POST handler for create-transcription, composed with the
withCommon middleware, returning the HTTP status code.  http.MaxBytesReader
caps the request body at the configured ceiling when it is positive, and
the multipart parse fails once reads exceed it; the multipart maxMemory
argument itself rejects nothing.  The remaining decision chain follows
handleCreateTranscription line by line (the method gate is outside this
model; only POST requests are modelled). -/
def handleCreateTranscription (apiKey : String) (maxUpload : Int)
    (r : CreateReq) (d : CreateDeps) : Nat :=
  if goTrimSpace apiKey ≠ "" ∧ r.apiKeyHeader ≠ goTrimSpace apiKey then 401
  else if 0 < maxUpload ∧ maxUpload < (bodyLen r : Int) then 400
  else if r.file = none then 400
  else if goTrimSpace r.callbackField ≠ "" ∧
          d.validURL (goTrimSpace r.callbackField) = false then 400
  else if goTrimSpace r.metadataField ≠ "" ∧
          d.validJSONMap (goTrimSpace r.metadataField) = false then 400
  else
    match saveMultipartImage r.file maxUpload with
    | Except.error _ => 400
    | Except.ok _ =>
        if ¬ d.createJobOk then 500
        else if goContains (goToLower (goTrimSpace r.preferHeader)) "respond-async" then
          if d.enqueueOk then 202 else 503
        else if d.processOk then 200 else 500

/-! ## Concrete scenarios and auxiliary predicates used by the theorems -/

/-- All rows of a table satisfy the stage and error invariant. -/
def invariantAll (st : StoreState) : Prop :=
  ∀ id row, st id = some row → rowInvariant row = true

/-- The normalization CreateJob applies to the optional callback and title
strings: an absent or empty value becomes NULL. -/
def normalizeOpt (o : Option String) : Option String :=
  match o with
  | some s => if s = "" then none else some s
  | none => none

/-- A freshly created job record in the Queued stage. -/
def queuedJob : Job Unit :=
  { id := "a", imagePath := "/tmp/u/aa.png", mimeType := "image/png",
    targetName := "docs", callbackURL := none, title := none, metadata := none,
    stage := StageQueued, errorMessage := none, targetLocation := none,
    targetCommit := none, createdAt := 1, startedAt := none, completedAt := none }

/-- Create, fail, then update the stage again: the operation sequence that
leaves a non-Failed row carrying an error message. -/
def failThenUpdateOps : List (StoreOp Unit) :=
  [StoreOp.create 1 queuedJob,
   StoreOp.fail "a" "boom" 5,
   StoreOp.update "a" StageTranscribing none]

/-- An injective stand-in for json.Marshal over string metadata: prefix a
tag character. -/
def tagMarshal (m : String) : String :=
  String.mk ('J' :: m.data)

/-- The inverse stand-in for json.Unmarshal: strip the tag, reject
documents that do not carry it. -/
def tagUnmarshal (s : String) : Option String :=
  match s.data with
  | 'J' :: rest => some (String.mk rest)
  | _ => none

/-- A job with every creation-time field populated, for the round-trip
witness. -/
def roundtripJob : Job String :=
  { id := "b", imagePath := "/tmp/u/bb.jpg", mimeType := "image/jpeg",
    targetName := "docs", callbackURL := some "http://cb.example/hook",
    title := some "Notes", metadata := some "x", stage := StageQueued,
    errorMessage := none, targetLocation := none, targetCommit := none,
    createdAt := 3, startedAt := none, completedAt := none }

/-- A job created with a present but empty title string. -/
def emptyTitleJob : Job Unit :=
  { id := "c", imagePath := "/tmp/u/cc.png", mimeType := "image/png",
    targetName := "docs", callbackURL := none, title := some "",
    metadata := none, stage := StageQueued, errorMessage := none,
    targetLocation := none, targetCommit := none, createdAt := 3,
    startedAt := none, completedAt := none }

/-- A create request whose file content is exactly the upload ceiling of
1024 bytes, inside a multipart envelope of 186 framing bytes. -/
def boundaryReq : CreateReq :=
  { apiKeyHeader := "", preferHeader := "", envelopeLen := 186,
    file := some ⟨"img.png", "image/png", 1024⟩,
    callbackField := "", titleField := "", metadataField := "" }

/-- A create request whose file content is well under the ceiling. -/
def smallReq : CreateReq :=
  { apiKeyHeader := "", preferHeader := "", envelopeLen := 186,
    file := some ⟨"img.png", "image/png", 10⟩,
    callbackField := "", titleField := "", metadataField := "" }

/-- The row produced by the disciplined create, transcribe, post, result
sequence of the C3 witness. -/
def completedRow : JobRow :=
  { imagePath := "/tmp/u/aa.png", mimeType := "image/png",
    targetName := "docs", callbackURL := none, title := none,
    metadataJSON := some "", stage := StageCompleted, errorMessage := none,
    targetLocation := some "git:loc", targetCommit := some "deadbeef",
    createdAt := 1, startedAt := some 3, completedAt := some 4 }

/-- Collaborators that all succeed. -/
def allOkDeps : CreateDeps :=
  { validURL := fun _ => true, validJSONMap := fun _ => true,
    createJobOk := true, enqueueOk := true, processOk := true }

/-- Concrete table with one row whose metadata document is not JSON. -/
def corruptRow : JobRow :=
  { imagePath := "/tmp/u/aa.png", mimeType := "image/png", targetName := "docs",
    callbackURL := none, title := none, metadataJSON := some "corrupt",
    stage := StageQueued, errorMessage := none, targetLocation := none,
    targetCommit := none, createdAt := 7, startedAt := none, completedAt := none }

/-- A part declaring the generic octet-stream type with a png filename. -/
def octetStreamPart : FileHeader :=
  ⟨"scan.PNG", "application/octet-stream", 3⟩

/-- A plain-text part. -/
def plainTextPart : FileHeader :=
  ⟨"doc.txt", "text/plain", 3⟩

/-- A job whose stored error message is present but empty. -/
def emptyErrorJob : Job Unit :=
  { id := "a", imagePath := "/tmp/u/aa.png", mimeType := "image/png",
    targetName := "docs", callbackURL := none, title := none, metadata := none,
    stage := StageFailed, errorMessage := some "", targetLocation := none,
    targetCommit := none, createdAt := 7, startedAt := none, completedAt := some 9 }

/-- A fixed byte sequence standing for one crypto/rand read. -/
def sampleBytes : Fin 16 → Fin 256 :=
  fun i => ⟨(37 * i.val + 11) % 256, Nat.mod_lt _ (by norm_num)⟩

/-- The state reached by Start from NewQueue. -/
def startedQueue : QueueState Unit :=
  match queueStart (NewQueue Unit 2 1) with
  | Except.ok q => q
  | Except.error _ => NewQueue Unit 2 1

/-! ## Helper lemmas -/

theorem bit_eq_aux (x : Bool) (m : Nat) : Nat.bit x m = 2 * m + x.toNat := by
  cases x <;> simp [Nat.bit]

theorem lor_bit_aux (m n : Nat) (x y : Bool) :
    (2 * m + x.toNat) ||| (2 * n + y.toNat) = 2 * (m ||| n) + (x || y).toNat := by
  have := Nat.lor_bit x m y n
  simpa [bit_eq_aux] using this

theorem lor_two_pow_add (k : Nat) :
    ∀ a b : Nat, b < 2 ^ k → a * 2 ^ k ||| b = a * 2 ^ k + b := by
  induction k with
  | zero =>
      intro a b hb
      interval_cases b
      simp
  | succ k ih =>
      intro a b hb
      have hq : b / 2 < 2 ^ k := by omega
      have h1 : a * 2 ^ (k + 1) = 2 * (a * 2 ^ k) + (false : Bool).toNat := by
        simp
        ring
      rcases Nat.mod_two_eq_zero_or_one b with h | h
      · have h2 : b = 2 * (b / 2) + (false : Bool).toNat := by
          simp
          omega
        rw [h1, h2, lor_bit_aux, ih _ _ hq]
        simp
        omega
      · have h2 : b = 2 * (b / 2) + (true : Bool).toNat := by
          simp
          omega
        rw [h1, h2, lor_bit_aux, ih _ _ hq]
        simp
        omega

theorem shiftLeft_lor_eq (a b k : Nat) (h : b < 2 ^ k) : a <<< k ||| b = a * 2 ^ k + b := by
  rw [Nat.shiftLeft_eq]
  exact lor_two_pow_add k a b h

theorem hexDigitChar_hex {m : Nat} (h : m < 16) :
    isHexLower (hexDigitChar m) = true ∧ hexDigitChar m ≠ '-' := by
  have hall : ∀ m : Fin 16, isHexLower (hexDigitChar m.val) = true ∧ hexDigitChar m.val ≠ '-' := by
    decide
  exact hall ⟨m, h⟩

theorem mem_hexPad {c : Char} {w n : Nat} (hc : c ∈ hexPad w n) :
    isHexLower c = true ∧ c ≠ '-' := by
  simp only [hexPad, List.mem_map, List.mem_reverse, List.mem_range] at hc
  obtain ⟨i, -, rfl⟩ := hc
  exact hexDigitChar_hex (Nat.mod_lt _ (by norm_num))

theorem hexPad_length (w n : Nat) : (hexPad w n).length = w := by
  simp [hexPad]

theorem splitDash_append (A t : List Char) (hA : ∀ c ∈ A, c ≠ '-') :
    splitDash (A ++ '-' :: t) = A :: splitDash t := by
  induction A with
  | nil => simp [splitDash]
  | cons c A ih =>
      have hc : c ≠ '-' := hA c (by simp)
      have hrest : ∀ x ∈ A, x ≠ '-' := fun x hx => hA x (by simp [hx])
      simp only [List.cons_append, splitDash, List.append_eq, if_neg hc, ih hrest]

theorem splitDash_no_dash (A : List Char) (hA : ∀ c ∈ A, c ≠ '-') :
    splitDash A = [A] := by
  induction A with
  | nil => simp [splitDash]
  | cons c A ih =>
      have hc : c ≠ '-' := hA c (by simp)
      have hrest : ∀ x ∈ A, x ≠ '-' := fun x hx => hA x (by simp [hx])
      simp only [splitDash, if_neg hc, ih hrest]

theorem hexPad_four (n : Nat) :
    hexPad 4 n = [hexDigitChar (n / 4096 % 16), hexDigitChar (n / 256 % 16),
                  hexDigitChar (n / 16 % 16), hexDigitChar (n % 16)] := by
  simp [hexPad, List.range_succ]

theorem uuidRender_match (n1 n2 n3 n4 n5 : Nat)
    (h3 : n3 / 4096 % 16 = 4) (h4lo : 8 ≤ n4 / 4096 % 16) (h4hi : n4 / 4096 % 16 ≤ 11) :
    uuidV4Match (String.mk (hexPad 8 n1 ++ '-' :: hexPad 4 n2 ++ '-' :: hexPad 4 n3 ++
      '-' :: hexPad 4 n4 ++ '-' :: hexPad 12 n5)) = true := by
  have hsplit : splitDash (hexPad 8 n1 ++ '-' :: hexPad 4 n2 ++ '-' :: hexPad 4 n3 ++
      '-' :: hexPad 4 n4 ++ '-' :: hexPad 12 n5) =
      [hexPad 8 n1, hexPad 4 n2, hexPad 4 n3, hexPad 4 n4, hexPad 12 n5] := by
    rw [show hexPad 8 n1 ++ '-' :: hexPad 4 n2 ++ '-' :: hexPad 4 n3 ++
          '-' :: hexPad 4 n4 ++ '-' :: hexPad 12 n5 =
        hexPad 8 n1 ++ '-' :: (hexPad 4 n2 ++ '-' :: (hexPad 4 n3 ++
          '-' :: (hexPad 4 n4 ++ '-' :: hexPad 12 n5))) from by simp]
    rw [splitDash_append _ _ (fun c hc => (mem_hexPad hc).2),
        splitDash_append _ _ (fun c hc => (mem_hexPad hc).2),
        splitDash_append _ _ (fun c hc => (mem_hexPad hc).2),
        splitDash_append _ _ (fun c hc => (mem_hexPad hc).2),
        splitDash_no_dash _ (fun c hc => (mem_hexPad hc).2)]
  have hall : (hexPad 8 n1 ++ hexPad 4 n2 ++ hexPad 4 n3 ++ hexPad 4 n4 ++ hexPad 12 n5).all
      isHexLower = true := by
    rw [List.all_eq_true]
    intro c hc
    simp only [List.mem_append] at hc
    rcases hc with ((((hc | hc) | hc) | hc) | hc) <;> exact (mem_hexPad hc).1
  have hhead3 : (hexPad 4 n3).headD ' ' = '4' := by
    rw [hexPad_four, h3]
    rfl
  have hhead4 : (hexPad 4 n4).headD ' ' = '8' ∨ (hexPad 4 n4).headD ' ' = '9' ∨
      (hexPad 4 n4).headD ' ' = 'a' ∨ (hexPad 4 n4).headD ' ' = 'b' := by
    have hq : n4 / 4096 % 16 = 8 ∨ n4 / 4096 % 16 = 9 ∨ n4 / 4096 % 16 = 10 ∨
        n4 / 4096 % 16 = 11 := by omega
    rw [hexPad_four]
    rcases hq with h | h | h | h <;> rw [h]
    · exact Or.inl (by rw [List.headD_cons]; decide)
    · exact Or.inr (Or.inl (by rw [List.headD_cons]; decide))
    · exact Or.inr (Or.inr (Or.inl (by rw [List.headD_cons]; decide)))
    · exact Or.inr (Or.inr (Or.inr (by rw [List.headD_cons]; decide)))
  rw [uuidV4Match]
  simp only [hsplit]
  simp only [hexPad_length, Bool.and_eq_true, Bool.or_eq_true, decide_eq_true_eq]
  refine ⟨⟨⟨⟨⟨⟨⟨trivial, trivial⟩, trivial⟩, trivial⟩, trivial⟩, hall⟩, hhead3⟩, ?_⟩
  rcases hhead4 with h | h | h | h
  · exact Or.inl (Or.inl (Or.inl h))
  · exact Or.inl (Or.inl (Or.inr h))
  · exact Or.inl (Or.inr h)
  · exact Or.inr h

/-! ## Claim theorems -/

/-- C9: every identifier rendered by NewID, for any sixteen random bytes,
matches the anchored 8-4-4-4-12 lowercase-hex pattern with the high nibble
of group three equal to 4 and the first digit of group four in 8, 9, a, b. -/
theorem NewID_matches_uuidV4 (b : Fin 16 → Fin 256) : uuidV4Match (NewID b) = true := by
  have hb6 : ((b 6).val &&& 0x0f) ||| 0x40 = 64 + ((b 6).val &&& 15) := by
    rw [Nat.lor_comm]
    have h := lor_two_pow_add 4 4 ((b 6).val &&& 15)
      (by have := @Nat.and_le_right ((b 6).val) 15; omega)
    norm_num at h
    exact h
  have hb8 : ((b 8).val &&& 0x3f) ||| 0x80 = 128 + ((b 8).val &&& 63) := by
    rw [Nat.lor_comm]
    have h := lor_two_pow_add 6 2 ((b 8).val &&& 63)
      (by have := @Nat.and_le_right ((b 8).val) 63; omega)
    norm_num at h
    exact h
  have hg3 : (((b 6).val &&& 0x0f) ||| 0x40) <<< 8 ||| (b 7).val
      = (64 + ((b 6).val &&& 15)) * 256 + (b 7).val := by
    rw [hb6, shiftLeft_lor_eq _ _ 8 (by simpa using (b 7).isLt)]
    norm_num
  have hg4 : (((b 8).val &&& 0x3f) ||| 0x80) <<< 8 ||| (b 9).val
      = (128 + ((b 8).val &&& 63)) * 256 + (b 9).val := by
    rw [hb8, shiftLeft_lor_eq _ _ 8 (by simpa using (b 9).isLt)]
    norm_num
  have h15 : (b 6).val &&& 15 ≤ 15 := Nat.and_le_right
  have h63 : (b 8).val &&& 63 ≤ 63 := Nat.and_le_right
  have h7 := (b 7).isLt
  have h9 := (b 9).isLt
  rw [NewID]
  exact uuidRender_match _ _ _ _ _
    (by rw [hg3]; omega)
    (by rw [hg4]; omega)
    (by rw [hg4]; omega)

/-- Witness for C9 at one concrete byte sequence. -/
theorem NewID_matches_uuidV4_witness :
    uuidV4Match (NewID sampleBytes) = true :=
  NewID_matches_uuidV4 sampleBytes

/-- C5: when the persisted metadata document of a job is one the unmarshal
rejects, GetJob still returns the record, with a nil metadata field. -/
theorem getJob_tolerates_corrupt_metadata {μ : Type} (unmarshal : String → Option μ)
    (st : StoreState) (id : String) (row : JobRow) (s : String)
    (hrow : st id = some row) (hmeta : row.metadataJSON = some s)
    (hbad : unmarshal s = none) :
    (getJob unmarshal st id).isSome = true ∧
    (getJob unmarshal st id).map (fun j => j.metadata) = some none := by
  unfold getJob
  rw [hrow]
  refine ⟨rfl, ?_⟩
  simp only [Option.map_some, Option.some.injEq, hmeta]
  by_cases hs : s = ""
  · simp [hs]
  · simp [hs, hbad]

/-- Witness for C5 at a concrete corrupt row, with the always-failing
unmarshal standing for json.Unmarshal on that document. -/
theorem getJob_tolerates_corrupt_metadata_witness :
    (getJob (fun _ => (none : Option Unit)) (storePut emptyStore "a" corruptRow) "a").map
      (fun j => j.metadata) = some none :=
  (getJob_tolerates_corrupt_metadata (fun _ => (none : Option Unit))
    (storePut emptyStore "a" corruptRow) "a" corruptRow "corrupt"
    (by rfl) (by rfl) (by rfl)).2

/-- C6: Shutdown is idempotent; after a first Shutdown the second call with
any deadline returns the state unchanged and performs no cancellation, no
channel close and no waiting. -/
theorem shutdown_idempotent {α : Type} (q : QueueState α) (d d2 : Int) :
    shutdown (shutdown q d).1 d2 = ((shutdown q d).1, []) := by
  unfold shutdown
  by_cases h : q.onceDone <;> simp [h]

/-- Witness for C6: a fresh queue shut down twice; the second call returns
the same state and an empty effect list. -/
theorem shutdown_idempotent_witness :
    shutdown (shutdown (NewQueue Unit 2 1) 5).1 7 = ((shutdown (NewQueue Unit 2 1) 5).1, []) :=
  shutdown_idempotent (NewQueue Unit 2 1) 5 7

/-- C7: an upload part with an empty or generic declared media type whose
filename extension resolves to an allowed image type is accepted with that
resolved type, and any part whose resolved media type is outside the
allowed set is rejected with an error. -/
theorem saveMultipartImage_fallback_and_rejection (fh : FileHeader) (maxB : Int) :
    ((fh.contentType = "" ∨
        goToLower (goTrimSpace fh.contentType) = "application/octet-stream") →
      isAllowedImageMime (mimeTypeByExtension (goToLower (filepathExt fh.filename))) = true →
      (saveMultipartImage (some fh) maxB).toOption.map (fun r => r.resolvedMime) =
        some (mimeTypeByExtension (goToLower (filepathExt fh.filename)))) ∧
    (isAllowedImageMime (resolveMime fh) = false →
      (saveMultipartImage (some fh) maxB).toOption = none) := by
  constructor
  · intro hgen hallow
    have hres : resolveMime fh = mimeTypeByExtension (goToLower (filepathExt fh.filename)) := by
      unfold resolveMime
      rw [if_pos hgen]
    unfold saveMultipartImage
    simp only [hres, hallow, if_pos]
    rfl
  · intro hbad
    unfold saveMultipartImage
    simp only [hbad, Bool.false_eq_true, if_false]
    rfl

/-- Witness for C7: a part named scan.PNG declaring the generic
application/octet-stream type is accepted as image/png via the extension
table, and a text/plain part is rejected. -/
theorem saveMultipartImage_fallback_and_rejection_witness :
    ((saveMultipartImage (some octetStreamPart) 10).toOption.map
      (fun r => r.resolvedMime) =
      some (mimeTypeByExtension (goToLower (filepathExt "scan.PNG")))) ∧
    (saveMultipartImage (some plainTextPart) 10).toOption = none :=
  ⟨(saveMultipartImage_fallback_and_rejection octetStreamPart 10).1
      (Or.inr (by decide)) (by decide),
   (saveMultipartImage_fallback_and_rejection plainTextPart 10).2 (by decide)⟩

/-- C8 counterexample: the error message some-empty-string is present (the
column is non-null) yet the projection renders null rather than the
internal-error literal. -/
theorem jobToOut_empty_error_counterexample :
    emptyErrorJob.errorMessage ≠ none ∧ (jobToOut emptyErrorJob).error = none := by
  constructor
  · decide
  · rfl

/-- C8 (amended): the projected error is the internal-error literal exactly
when the stored error message is present and non-empty, and it is otherwise
null; in particular the stored text itself is never exposed. -/
theorem jobToOut_error_redaction {μ : Type} (job : Job μ) :
    ((jobToOut job).error = some "internal error" ↔
      job.errorMessage ≠ none ∧ job.errorMessage ≠ some "") ∧
    ((jobToOut job).error = none ∨ (jobToOut job).error = some "internal error") := by
  unfold jobToOut
  cases h : job.errorMessage with
  | none => simp
  | some s =>
      by_cases hs : s = "" <;> simp [hs]

/-- Witness for C8: on the empty-error job the projected error is one of
null or the internal-error literal (here null). -/
theorem jobToOut_error_redaction_witness :
    (jobToOut emptyErrorJob).error = none ∨
    (jobToOut emptyErrorJob).error = some "internal error" :=
  (jobToOut_error_redaction emptyErrorJob).2

/-- C10: on a started, not yet shut down queue, Shutdown leaves the started
flag true and closes the channel, so a subsequent Enqueue reaches the
non-blocking send and panics with send-on-closed-channel instead of
returning a graceful queue-closed error. -/
theorem enqueue_after_shutdown_panics {α : Type} (q : QueueState α) (d : Int) (item : α)
    (hstarted : q.started = true) (honce : q.onceDone = false) :
    (shutdown q d).1.started = true ∧
    (shutdown q d).1.chClosed = true ∧
    (enqueue (shutdown q d).1 item).2 = EnqueueOutcome.panicSendOnClosed := by
  unfold shutdown enqueue
  simp [honce, hstarted]

/-- Witness for C10: the queue freshly started from NewQueue, shut down,
then offered an item, panics. -/
theorem enqueue_after_shutdown_panics_witness :
    (enqueue (shutdown startedQueue 5).1 ()).2 = EnqueueOutcome.panicSendOnClosed :=
  (enqueue_after_shutdown_panics startedQueue 5 () (by rfl) (by rfl)).2.2

theorem sendCallbackLoop_attempts_le (post ctx : Nat → Bool) (B : Int) :
    ∀ (r a : Nat), (sendCallbackLoop post ctx B a r).attemptsMade ≤ r := by
  intro r
  induction r with
  | zero => intro a; simp [sendCallbackLoop]
  | succ r ih =>
      intro a
      unfold sendCallbackLoop
      by_cases hp : post a
      · simp [hp]
      · by_cases hc : ctx a
        · simp [hp, hc]
        · have := ih (a + 1)
          simp [hp, hc]
          omega

theorem sendCallbackLoop_sleeps (post ctx : Nat → Bool) (B : Int) :
    ∀ (r a i : Nat), i < (sendCallbackLoop post ctx B a r).sleeps.length →
      (sendCallbackLoop post ctx B a r).sleeps.getD i 0 = ((a + i : Nat) : Int) * B := by
  intro r
  induction r with
  | zero => intro a i hi; simp [sendCallbackLoop] at hi
  | succ r ih =>
      intro a i hi
      unfold sendCallbackLoop at hi ⊢
      by_cases hp : post a
      · simp [hp] at hi
      · by_cases hc : ctx a
        · simp [hp, hc] at hi
        · simp only [hp, hc, Bool.false_eq_true, if_false] at hi ⊢
          cases i with
          | zero => simp
          | succ i =>
              simp only [List.length_cons, Nat.add_lt_add_iff_right] at hi
              have := ih (a + 1) i hi
              simp only [List.getD_cons_succ, this]
              congr 1
              push_cast
              ring

theorem sendCallbackLoop_first_success (post ctx : Nat → Bool) (B : Int) :
    ∀ (r a m : Nat), m < r →
      (∀ j, j < m → post (a + j) = false ∧ ctx (a + j) = false) →
      post (a + m) = true →
      (sendCallbackLoop post ctx B a r).attemptsMade = m + 1 ∧
      (sendCallbackLoop post ctx B a r).success = true ∧
      (sendCallbackLoop post ctx B a r).sleeps.length = m := by
  intro r
  induction r with
  | zero => intro a m hm; omega
  | succ r ih =>
      intro a m hm hfail hsucc
      unfold sendCallbackLoop
      cases m with
      | zero =>
          have hp : post a = true := by simpa using hsucc
          simp [hp]
      | succ m =>
          obtain ⟨hp, hc⟩ := hfail 0 (Nat.succ_pos m)
          simp only [Nat.add_zero] at hp hc
          have hfail2 : ∀ j, j < m → post (a + 1 + j) = false ∧ ctx (a + 1 + j) = false := by
            intro j hj
            have := hfail (j + 1) (by omega)
            simpa [Nat.add_assoc, Nat.add_comm 1 j] using this
          have hsucc2 : post (a + 1 + m) = true := by
            have : a + 1 + m = a + (m + 1) := by omega
            rw [this]
            exact hsucc
          obtain ⟨ht1, ht2, ht3⟩ := ih (a + 1) m (by omega) hfail2 hsucc2
          simp only [hp, hc, Bool.false_eq_true, if_false]
          refine ⟨?_, ht2, ?_⟩
          · simp only [ht1]
          · simp only [List.length_cons, ht3]

theorem sendCallbackLoop_all_fail (post ctx : Nat → Bool) (B : Int) :
    ∀ (r a : Nat),
      (∀ j, j < r → post (a + j) = false ∧ ctx (a + j) = false) →
      (sendCallbackLoop post ctx B a r).attemptsMade = r ∧
      (sendCallbackLoop post ctx B a r).success = false ∧
      (sendCallbackLoop post ctx B a r).sleeps.length = r := by
  intro r
  induction r with
  | zero => intro a hfail; simp [sendCallbackLoop]
  | succ r ih =>
      intro a hfail
      obtain ⟨hp, hc⟩ := hfail 0 (Nat.succ_pos r)
      simp only [Nat.add_zero] at hp hc
      have hfail2 : ∀ j, j < r → post (a + 1 + j) = false ∧ ctx (a + 1 + j) = false := by
        intro j hj
        have := hfail (j + 1) (by omega)
        simpa [Nat.add_assoc, Nat.add_comm 1 j] using this
      obtain ⟨ht1, ht2, ht3⟩ := ih (a + 1) hfail2
      unfold sendCallbackLoop
      simp only [hp, hc, Bool.false_eq_true, if_false]
      refine ⟨?_, ht2, ?_⟩
      · simp only [ht1]
      · simp only [List.length_cons, ht3]

/-- C2 (amended): the callback loop makes at most R attempts (R the
positive-defaulted retries); the i-th sleep, counted from zero, lasts
(i + 1) times the positive-defaulted base backoff; when the first success
comes at attempt k the loop stops there with success after exactly k - 1
sleeps; and when every attempt fails with a live context the loop makes
exactly R attempts and sleeps R times - that is, it also sleeps after the
final failed attempt before giving up. -/
theorem sendCallbackWithRetry_spec (cfgR cfgB : Int) (post ctxDone : Nat → Bool) :
    (sendCallbackWithRetry cfgR cfgB post ctxDone).attemptsMade ≤ effectiveRetries cfgR ∧
    (∀ i : Nat, i < (sendCallbackWithRetry cfgR cfgB post ctxDone).sleeps.length →
      (sendCallbackWithRetry cfgR cfgB post ctxDone).sleeps.getD i 0 =
        ((i + 1 : Nat) : Int) * effectiveBackoff cfgB) ∧
    (∀ k : Nat, 1 ≤ k → k ≤ effectiveRetries cfgR →
      (∀ j, 1 ≤ j → j < k → post j = false ∧ ctxDone j = false) → post k = true →
      (sendCallbackWithRetry cfgR cfgB post ctxDone).attemptsMade = k ∧
      (sendCallbackWithRetry cfgR cfgB post ctxDone).success = true ∧
      (sendCallbackWithRetry cfgR cfgB post ctxDone).sleeps.length = k - 1) ∧
    ((∀ j, 1 ≤ j → j ≤ effectiveRetries cfgR → post j = false ∧ ctxDone j = false) →
      (sendCallbackWithRetry cfgR cfgB post ctxDone).attemptsMade = effectiveRetries cfgR ∧
      (sendCallbackWithRetry cfgR cfgB post ctxDone).success = false ∧
      (sendCallbackWithRetry cfgR cfgB post ctxDone).sleeps.length = effectiveRetries cfgR) := by
  unfold sendCallbackWithRetry
  refine ⟨sendCallbackLoop_attempts_le post ctxDone _ _ 1, ?_, ?_, ?_⟩
  · intro i hi
    have := sendCallbackLoop_sleeps post ctxDone (effectiveBackoff cfgB)
      (effectiveRetries cfgR) 1 i hi
    rw [this]
    congr 1
    omega
  · intro k hk1 hkR hfail hsucc
    have h := sendCallbackLoop_first_success post ctxDone (effectiveBackoff cfgB)
      (effectiveRetries cfgR) 1 (k - 1) (by omega)
      (by
        intro j hj
        exact hfail (1 + j) (by omega) (by omega))
      (by
        have : 1 + (k - 1) = k := by omega
        rw [this]
        exact hsucc)
    refine ⟨by omega, h.2.1, h.2.2⟩
  · intro hfail
    exact sendCallbackLoop_all_fail post ctxDone (effectiveBackoff cfgB)
      (effectiveRetries cfgR) 1
      (fun j hj => hfail (1 + j) (by omega) (by omega))

/-- C2 counterexample: with one configured attempt and base backoff 5, a
failing delivery still sleeps once, for 1 times the backoff, after the
final (and only) attempt; the claim as stated says no wait occurs after the
final attempt, which would leave the sleep list empty. -/
theorem sendCallback_sleep_after_final_counterexample :
    sendCallbackWithRetry 1 5 (fun _ => false) (fun _ => false) =
      { attemptsMade := 1, sleeps := [5], success := false } := by
  decide

/-- Witness for C2: three configured retries with the second attempt
succeeding stop the loop at two attempts after one sleep. -/
theorem sendCallbackWithRetry_spec_witness :
    (sendCallbackWithRetry 3 7 (fun n => n == 2) (fun _ => false)).attemptsMade = 2 ∧
    (sendCallbackWithRetry 3 7 (fun n => n == 2) (fun _ => false)).success = true ∧
    (sendCallbackWithRetry 3 7 (fun n => n == 2) (fun _ => false)).sleeps.length = 2 - 1 :=
  (sendCallbackWithRetry_spec 3 7 (fun n => n == 2) (fun _ => false)).2.2.1 2
    (by decide) (by decide)
    (by
      intro j hj1 hj2
      have hj : j = 1 := by omega
      subst hj
      exact ⟨rfl, rfl⟩)
    rfl

/-- C3 counterexample: after create, SaveError, then UpdateStage back to
Transcribing, the persisted row is in the Transcribing stage yet still
carries the error message, because UpdateStage never clears error_message;
the invariant of the claim fails on this reachable operation sequence. -/
theorem stage_error_invariant_counterexample :
    ((applyOps (fun _ : Unit => "") emptyStore failThenUpdateOps) "a").map
        (fun r => (r.stage, r.errorMessage)) =
      some (StageTranscribing, some "boom") ∧
    ((applyOps (fun _ : Unit => "") emptyStore failThenUpdateOps) "a").map
        rowInvariant = some false := by
  constructor
  · decide
  · decide

theorem invariantAll_empty : invariantAll emptyStore := by
  intro id row h
  simp [emptyStore] at h

theorem invariantAll_storePut {st : StoreState} {id : String} {row : JobRow}
    (hinv : invariantAll st) (hrow : rowInvariant row = true) :
    invariantAll (storePut st id row) := by
  intro id2 row2 h2
  unfold storePut at h2
  by_cases he : id2 = id
  · rw [if_pos he] at h2
    cases h2
    exact hrow
  · rw [if_neg he] at h2
    exact hinv id2 row2 h2

theorem applyOp_preserves_invariant {μ : Type} (marshal : μ → String)
    (st : StoreState) (op : StoreOp μ)
    (hinv : invariantAll st) (hop : goodOp st op = true) :
    invariantAll (applyOp marshal st op) := by
  cases op with
  | create now job =>
      have hstage : job.stage = StageQueued := by
        simpa [goodOp] using hop
      simp only [applyOp, createJob]
      by_cases hid : job.id = ""
      · simpa [hid] using hinv
      · cases hfresh : st job.id with
        | some r => simpa [hid, hfresh] using hinv
        | none =>
            simp only [hid, hfresh, if_false, if_neg]
            refine invariantAll_storePut hinv ?_
            simp [rowInvariant, hstage, allStages, StageQueued, StageFailed,
                  StageTranscribing, StagePosting, StageCompleted]
  | update id stage startedAt =>
      simp only [applyOp, updateStage]
      cases hrow : st id with
      | none => simpa [hrow] using hinv
      | some row =>
          simp only [goodOp, hrow, Bool.and_eq_true, decide_eq_true_eq] at hop
          obtain ⟨hmem, hnotfailed⟩ := hop
          simp only [hrow]
          have hrowinv := hinv id row hrow
          have herr : row.errorMessage = none := by
            simp only [rowInvariant, Bool.and_eq_true, decide_eq_true_eq] at hrowinv
            rcases hrowinv with ⟨-, hiff⟩
            by_contra hne
            exact hnotfailed (hiff.mp hne)
          refine invariantAll_storePut hinv ?_
          simp only [rowInvariant, herr, Bool.and_eq_true, decide_eq_true_eq]
          simp only [List.mem_cons, List.not_mem_nil, or_false] at hmem
          constructor
          · rcases hmem with h | h | h <;> subst h <;> decide
          · constructor
            · intro h
              exact absurd rfl h
            · intro h
              rcases hmem with hm | hm | hm <;> subst hm <;> simp_all [StageQueued,
                StageTranscribing, StagePosting, StageFailed]
  | result id loc commit t =>
      simp only [applyOp, saveResult]
      cases hrow : st id with
      | none => simpa [hrow] using hinv
      | some row =>
          simp only [hrow]
          refine invariantAll_storePut hinv ?_
          simp [rowInvariant, allStages, StageQueued, StageTranscribing,
                StagePosting, StageCompleted, StageFailed]
  | fail id msg t =>
      simp only [applyOp, saveError]
      cases hrow : st id with
      | none => simpa [hrow] using hinv
      | some row =>
          simp only [hrow]
          refine invariantAll_storePut hinv ?_
          simp [rowInvariant, allStages, StageQueued, StageTranscribing,
                StagePosting, StageCompleted, StageFailed]

theorem applyOps_preserves_invariant {μ : Type} (marshal : μ → String) :
    ∀ (ops : List (StoreOp μ)) (st : StoreState),
      invariantAll st → goodTrace marshal st ops = true →
      invariantAll (applyOps marshal st ops) := by
  intro ops
  induction ops with
  | nil => intro st hinv _; exact hinv
  | cons op rest ih =>
      intro st hinv hgood
      simp only [goodTrace, Bool.and_eq_true] at hgood
      exact ih (applyOp marshal st op)
        (applyOp_preserves_invariant marshal st op hinv hgood.1) hgood.2

/-- C3 (amended): after any sequence of store operations in which jobs are
created in the Queued stage and UpdateStage is only invoked with one of the
Queued, Transcribing or Posting stages and never on a job already Failed,
every persisted row has a stage among the five stages and a non-null
error_message exactly when the stage is Failed.  (Unrestricted sequences
violate the invariant: UpdateStage does not clear error_message.) -/
theorem stage_error_invariant {μ : Type} (marshal : μ → String)
    (ops : List (StoreOp μ)) (hgood : goodTrace marshal emptyStore ops = true)
    (id : String) (row : JobRow)
    (hrow : applyOps marshal emptyStore ops id = some row) :
    rowInvariant row = true :=
  applyOps_preserves_invariant marshal ops emptyStore invariantAll_empty hgood id row hrow

/-- Witness for C3: the disciplined sequence create, mark transcribing,
mark posting, save a result, whose final row satisfies the invariant. -/
theorem stage_error_invariant_witness :
    rowInvariant completedRow = true :=
  stage_error_invariant (fun _ : Unit => "")
    [StoreOp.create 1 queuedJob,
     StoreOp.update "a" StageTranscribing (some 2),
     StoreOp.update "a" StagePosting (some 3),
     StoreOp.result "a" "git:loc" "deadbeef" 4]
    (by decide) "a" _ (by decide)

/-- C4 counterexample: a job created with a present but empty title comes
back from GetJob with a null title, because CreateJob normalizes the empty
string to NULL; the field is not value-equal to what was created and was
not absent. -/
theorem createJob_getJob_empty_title_counterexample :
    emptyTitleJob.title = some "" ∧
    ((createJob (fun _ : Unit => "") 9 emptyStore emptyTitleJob).toOption.bind
      (fun st2 => getJob (fun _ => (none : Option Unit)) st2 "c")).map
        (fun j => j.title) = some none := by
  constructor
  · rfl
  · decide

/-- C4 (amended): for a job with a non-empty identifier not yet present in
the table and a non-zero creation time, CreateJob followed by GetJob
returns the record with every created scalar field value-equal, the
optional callback and title normalized to NULL when absent or empty, the
metadata round-tripped through its serialization (value-equal whenever the
serialization itself round-trips, as the claim assumes of JSON), the
timestamps preserved exactly at nanosecond precision, and the never-
inserted error, result and progress fields NULL. -/
theorem createJob_getJob_roundtrip {μ : Type} (marshal : μ → String)
    (unmarshal : String → Option μ) (now : Int) (st : StoreState) (job : Job μ)
    (hid : job.id ≠ "") (hfresh : st job.id = none) (hct : job.createdAt ≠ 0)
    (hmeta : ∀ m, job.metadata = some m → marshal m ≠ "" ∧ unmarshal (marshal m) = some m) :
    (createJob marshal now st job).toOption.bind
        (fun st2 => getJob unmarshal st2 job.id) =
      some { job with callbackURL := normalizeOpt job.callbackURL,
                      title := normalizeOpt job.title,
                      errorMessage := none, targetLocation := none,
                      targetCommit := none, startedAt := none,
                      completedAt := none } := by
  cases hm : job.metadata with
  | none =>
      simp [createJob, if_neg hid, hfresh, if_neg hct, getJob, storePut, hm,
            normalizeOpt, Except.toOption]
  | some m =>
      obtain ⟨hne, hrt⟩ := hmeta m hm
      simp [createJob, if_neg hid, hfresh, if_neg hct, getJob, storePut, hm,
            hne, hrt, normalizeOpt, Except.toOption]

/-- Witness for C4: the fully populated job round-trips value-equal (its
optional fields are non-empty, so normalization is the identity on them). -/
theorem createJob_getJob_roundtrip_witness :
    (createJob tagMarshal 9 emptyStore roundtripJob).toOption.bind
        (fun st2 => getJob tagUnmarshal st2 roundtripJob.id) =
      some roundtripJob := by
  have h := createJob_getJob_roundtrip tagMarshal tagUnmarshal 9 emptyStore roundtripJob
    (by decide) rfl (by decide)
    (by
      intro m hm
      cases hm
      exact ⟨by decide, by decide⟩)
  rw [h]
  decide

/-- C1 counterexample: with a 1024-byte ceiling, the request whose file
content is exactly 1024 bytes is rejected with 400, not accepted: the
body-size cap applies to the whole multipart body, and the 186 framing
bytes push it over the ceiling.  The claim as stated expects acceptance at
exactly the ceiling. -/
theorem oversize_boundary_counterexample :
    handleCreateTranscription "" 1024 boundaryReq allOkDeps = 400 := by
  decide

/-- C1 (amended): for an otherwise valid synchronous upload request with no
API key configured, the create request is accepted with 200 exactly when
its whole multipart body, file content plus framing, is at most
maxUploadSize, and rejected with 400 when the body exceeds it; since the
framing is non-empty, a file of exactly maxUploadSize bytes or more is
already rejected with 400.  The uploader itself truncates the stored copy
at the ceiling instead of rejecting. -/
theorem handleCreate_size_boundary (apiKey : String) (maxUpload : Int)
    (r : CreateReq) (d : CreateDeps) (f : FileHeader)
    (hkey : goTrimSpace apiKey = "")
    (hmax : 0 < maxUpload)
    (henv : 1 ≤ r.envelopeLen)
    (hfile : r.file = some f)
    (hmime : isAllowedImageMime (resolveMime f) = true)
    (hcb : goTrimSpace r.callbackField = "")
    (hmf : goTrimSpace r.metadataField = "")
    (hstore : d.createJobOk = true)
    (hsync : goContains (goToLower (goTrimSpace r.preferHeader)) "respond-async" = false)
    (hproc : d.processOk = true) :
    ((bodyLen r : Int) ≤ maxUpload → handleCreateTranscription apiKey maxUpload r d = 200) ∧
    (maxUpload < (bodyLen r : Int) → handleCreateTranscription apiKey maxUpload r d = 400) ∧
    (maxUpload ≤ (f.size : Int) → handleCreateTranscription apiKey maxUpload r d = 400) := by
  have hkeyc : ¬(goTrimSpace apiKey ≠ "" ∧ r.apiKeyHeader ≠ goTrimSpace apiKey) := by
    simp [hkey]
  have hbody : bodyLen r = f.size + r.envelopeLen := by
    simp [bodyLen, hfile]
  have h400 : maxUpload < (bodyLen r : Int) →
      handleCreateTranscription apiKey maxUpload r d = 400 := by
    intro hgt
    unfold handleCreateTranscription
    rw [if_neg hkeyc, if_pos ⟨hmax, hgt⟩]
  refine ⟨?_, h400, ?_⟩
  · intro hle
    have hcond : ¬(0 < maxUpload ∧ maxUpload < (bodyLen r : Int)) := by
      intro hc
      omega
    have hsave : saveMultipartImage (some f) maxUpload =
        Except.ok { resolvedMime := resolveMime f,
                    ext := pickExtension (resolveMime f) f.filename,
                    bytesWritten := min f.size maxUpload.toNat } := by
      simp [saveMultipartImage, hmime]
    unfold handleCreateTranscription
    rw [if_neg hkeyc, if_neg hcond,
        if_neg (show ¬(r.file = none) by simp [hfile]),
        if_neg (show ¬(goTrimSpace r.callbackField ≠ "" ∧
          d.validURL (goTrimSpace r.callbackField) = false) by simp [hcb]),
        if_neg (show ¬(goTrimSpace r.metadataField ≠ "" ∧
          d.validJSONMap (goTrimSpace r.metadataField) = false) by simp [hmf]),
        hfile, hsave]
    simp [hstore, hsync, hproc]
  · intro hsz
    apply h400
    rw [hbody]
    push_cast
    omega

/-- Witness for C1: a 10-byte file in a 196-byte body is accepted with 200
under the 1024-byte ceiling, and a file of exactly 1024 bytes is rejected
with 400. -/
theorem handleCreate_size_boundary_witness :
    handleCreateTranscription "" 1024 smallReq allOkDeps = 200 ∧
    handleCreateTranscription "" 1024 boundaryReq allOkDeps = 400 :=
  ⟨(handleCreate_size_boundary "" 1024 smallReq allOkDeps
      ⟨"img.png", "image/png", 10⟩ rfl (by decide) (by decide) rfl (by decide)
      rfl rfl rfl (by decide) rfl).1 (by decide),
   (handleCreate_size_boundary "" 1024 boundaryReq allOkDeps
      ⟨"img.png", "image/png", 1024⟩ rfl (by decide) (by decide) rfl (by decide)
      rfl rfl rfl (by decide) rfl).2.2 (by decide)⟩

end Gostwriter
